import Mathlib

/-!
# Verification of the claude-code-web session server

A shallow embedding, in Lean 4, of the session-lifecycle core of the
`server/index.js` of this repository (the revision with path validation and
buffer-restore reconnection), together with proofs and refutations of the
frozen specification claims.

Modelling conventions:
* JavaScript strings are finite sequences of UTF-16 code units; they are
  embedded as `List Char` (type `Str`).  `s.length`, `+=`, `slice`,
  `includes`, `startsWith`, `substring` become the corresponding list
  operations.
* The mutable session record / registry maps become explicit state records
  and association lists; every handler becomes a pure state-transition
  function returning the new state together with the list of observable
  effects (WebSocket sends, PTY writes, kill signals) it performs.
* `setTimeout`-scheduled work is recorded as a delayed effect carrying its
  delay in milliseconds; a delayed effect fires only if its run-time guard
  (the PTY still being alive) holds at fire time, exactly as in the source.
* WebSocket objects are embedded as records carrying the fields the server
  reads (`readyState`, `isAlive`, `lastSeen`); JavaScript reference identity
  (`===`) between WebSocket objects is modelled as equality of a numeric
  `wsId`.
* The PTY process handle (external `node-pty` collaborator) is embedded as
  a record with a `pid` and the boolean `killed` flag the server's guards
  read.  Per Node's `ChildProcess` contract, `killed` becomes true only
  after a successful `kill()` call — never because the process exited on
  its own — and node-pty's own handle exposes no `killed` field at all
  (it reads as `undefined`, i.e. falsy); the repository's test mocks
  accordingly create the handle with `killed: false` and fire the `exit`
  handler without changing it.
-/
set_option maxRecDepth 4000

/-- JavaScript strings, embedded as lists of UTF-16 code units. -/
abbrev Str := List Char

/-- Convenience: the unit sequence of a Lean string literal. -/
def str (s : String) : Str := s.data

/-! ## Rolling terminal buffer (Output Pipeline, `setupSessionEventHandlers`)

Source (`server/index.js`, data handler):
```js
session.terminalBuffer += output;
// Keep buffer size manageable (last 50KB of output)
if (session.terminalBuffer.length > 50000) {
  session.terminalBuffer = session.terminalBuffer.slice(-50000);
}
```
-/
/-- The fixed cap on the rolling terminal buffer: 50,000 units. -/
def terminalBufferCap : Nat := 50000

/-- One append to the session's rolling `terminalBuffer`, with the
slice-from-tail eviction of the source (`slice(-50000)` keeps the last
50,000 units). -/
def appendTerminalBuffer (buf out : Str) : Str :=
  let b := buf ++ out
  if b.length > terminalBufferCap then b.drop (b.length - terminalBufferCap) else b

/-- The most recent at-most-`n` units of `l` (JavaScript `slice(-n)`). -/
def lastUnits (n : Nat) (l : Str) : Str := l.drop (l.length - n)

/-! ## Path validation (`validateAndNormalizePath`)

Source (`server/index.js`):
```js
function validateAndNormalizePath(userPath) {
  if (!userPath || typeof userPath !== 'string' || userPath.trim().length === 0) ...
  const trimmedPath = userPath.trim();
  if (trimmedPath.includes('\x00') || trimmedPath.includes('\0')) ...
  if (trimmedPath.length > 4096) ...
  if (trimmedPath.includes('../')) ...
  if (trimmedPath.includes('./')) ...
  if (trimmedPath.includes('//')) ...
  let normalizedPath = trimmedPath;
  const workingDirPrefix = getWorkingDirPrefix();
  if (workingDirPrefix && workingDirPrefix.trim().length > 0) {
    const prefix = workingDirPrefix.trim();
    if (normalizedPath.startsWith('/')) normalizedPath = normalizedPath.substring(1);
    const prefixWithSlash = prefix.endsWith('/') ? prefix : prefix + '/';
    normalizedPath = prefixWithSlash + normalizedPath;
  }
  normalizedPath = path.resolve(normalizedPath);
  return { isValid: true, normalizedPath, ... };
}
```
The `WORKING_DIR_PREFIX` environment value and the process working directory
(consulted by Node's `path.resolve` for relative inputs) are passed as
explicit parameters.  The model covers string inputs; the `typeof` check
only excludes non-string callers, which do not occur in the server.
-/
/-- JavaScript `String.prototype.trim`: strips leading and trailing
whitespace (modelled with Lean's whitespace predicate, which agrees with
JavaScript on the characters appearing in this development). -/
def jsTrim (s : Str) : Str :=
  ((s.dropWhile Char.isWhitespace).reverse.dropWhile Char.isWhitespace).reverse

/-- The NUL character `'\x00'` (`'\0'` in the source denotes the same unit). -/
def nulChar : Char := Char.ofNat 0

/-- Split a unit sequence at `'/'` (the segment view that POSIX path
resolution works on); always returns at least one segment. -/
def splitSlash : Str → List Str
  | [] => [[]]
  | c :: rest =>
    if c = '/' then [] :: splitSlash rest
    else
      match splitSlash rest with
      | [] => [[c]]
      | s :: ss => (c :: s) :: ss

/-- The segment-stack normalisation of POSIX path resolution: empty and
`.` segments are skipped, `..` pops the stack. -/
def resolveSegs : List Str → List Str → List Str
  | acc, [] => acc
  | acc, s :: rest =>
    if s = [] ∨ s = ['.'] then resolveSegs acc rest
    else if s = ['.', '.'] then resolveSegs acc.dropLast rest
    else resolveSegs (acc ++ [s]) rest

/-- Join segments with `'/'` separators. -/
def joinSegs : List Str → Str
  | [] => []
  | [s] => s
  | s :: rest => s ++ '/' :: joinSegs rest

/-- An absolute path made of the given segments (`"/"` when none). -/
def joinPath (segs : List Str) : Str := '/' :: joinSegs segs

/-- Node `path.resolve` on an absolute argument. -/
def resolveAbs (p : Str) : Str := joinPath (resolveSegs [] (splitSlash p))

/-- Node `path.resolve`: relative arguments are resolved against the
process working directory `cwd` (assumed absolute). -/
def resolvePath (cwd p : Str) : Str :=
  if p.head? = some '/' then resolveAbs p else resolveAbs (cwd ++ '/' :: p)

/-- The success payload of `validateAndNormalizePath`. -/
structure ValidPath where
  normalizedPath : Str
  displayPath : Str
  userInput : Str
  prefixApplied : Bool
deriving DecidableEq, Repr

/-- Result of `validateAndNormalizePath`: either a rejection reason or the
normalized path payload. -/
inductive PathValidation
  | invalid (error : Str)
  | valid (res : ValidPath)
deriving DecidableEq, Repr

/-- The `// If prefix is configured and not empty, apply it` block of the
source: strip one leading slash from the user path, make sure the
configured root ends with a slash, and concatenate. -/
def combinedPath (workingDirPrefix trimmedPath : Str) : Str :=
  if jsTrim workingDirPrefix = [] then trimmedPath
  else
    (if (jsTrim workingDirPrefix).getLast? = some '/' then jsTrim workingDirPrefix
     else jsTrim workingDirPrefix ++ ['/'])
    ++ (if trimmedPath.head? = some '/' then trimmedPath.drop 1 else trimmedPath)

def validateAndNormalizePath (workingDirPrefix cwd userPath : Str) : PathValidation :=
  if jsTrim userPath = [] then .invalid (str "Path cannot be empty")
  else if nulChar ∈ jsTrim userPath then .invalid (str "Invalid characters in path")
  else if (jsTrim userPath).length > 4096 then .invalid (str "Path too long")
  else if str "../" <:+: jsTrim userPath then
    .invalid (str "Parent directory traversal not allowed")
  else if str "./" <:+: jsTrim userPath then
    .invalid (str "Current directory references not allowed")
  else if str "//" <:+: jsTrim userPath then .invalid (str "Invalid path format")
  else
    .valid { normalizedPath := resolvePath cwd (combinedPath workingDirPrefix (jsTrim userPath))
             displayPath := resolvePath cwd (combinedPath workingDirPrefix (jsTrim userPath))
             userInput := jsTrim userPath
             prefixApplied := !(jsTrim workingDirPrefix).isEmpty }

/-- Extract the normalized path of a successful validation. -/
def normalizedOf : PathValidation → Option Str
  | .invalid _ => none
  | .valid r => some r.normalizedPath

/-- A path segment that survives POSIX resolution unchanged: non-empty,
not `.`, not `..`. -/
def regSeg (s : Str) : Prop := s ≠ [] ∧ s ≠ ['.'] ∧ s ≠ ['.', '.']

instance (s : Str) : Decidable (regSeg s) := by
  unfold regSeg
  infer_instance

/-! ## Session records, registry and WebSocket layer

The remaining claims concern the stateful server core: `allSessions` /
`wsSessions`, `startClaudeCodeSession`, `reconnectToSession`,
`setupSessionEventHandlers`, `handleInput`, `cleanupSessionById` and the
staleness sweeper.  Mutable objects become records, the two global `Map`s
become association lists, and each handler becomes a pure function from
state to state plus a list of observable actions.
-/
/-- The fields of a WebSocket object that the server reads.  JavaScript
reference identity (`===`) between WebSocket objects is modelled as
equality of `wsId`. -/
structure WsObj where
  wsId : Nat
  readyState : Nat
  isAlive : Bool
  lastSeen : Nat
deriving DecidableEq, Repr

/-- The node-pty process handle.  `killed` is the flag the server's
guards read; it becomes true only after a successful `kill()` call
(Node's `ChildProcess` contract — node-pty's handle itself exposes no
`killed` field, so it reads as falsy), and in particular it stays false
when the process exits on its own, exactly as in the repository's test
mocks, which create the handle with `killed: false` and fire the `exit`
handler without changing it. -/
structure PtyProc where
  pid : Nat
  killed : Bool
deriving DecidableEq, Repr

/-- `session.currentWs && session.currentWs.readyState === 1`. -/
def wsLive : Option WsObj → Bool
  | none => false
  | some w => w.readyState == 1

/-- `session.currentWs === ws` (reference identity). -/
def wsSame : Option WsObj → WsObj → Bool
  | none, _ => false
  | some x, w => x.wsId == w.wsId

/-- The Session Record (`sessionData`), together with the listener counts
of its PTY process and the `outputBuffer`/`bufferTimer` closure state of
`setupSessionEventHandlers` (exactly one such closure ever exists, which
is what the `handlersSetup` guard — claim C1 — is for). -/
structure SessionRec where
  sessionId : Str
  pty : PtyProc
  workingDir : Str
  createdAt : Nat
  terminalBuffer : Str
  lastBufferUpdate : Nat
  currentWs : Option WsObj
  handlersSetup : Bool
  bufferTimerPending : Bool
  outputBuffer : Str
  dataListeners : Nat
  exitListeners : Nat
  errorListeners : Nat
deriving DecidableEq, Repr

/-- Server→client JSON messages. -/
inductive Msg
  | sessionStarted (sessionId : Str)
  | sessionReconnected (sessionId workingDir : Str)
  | output (data : Str)
  | bufferRestore (sessionId : Str) (data : Str)
  | terminalRefresh (sessionId : Str)
  | exitMsg (code : Int)
  | errorMsg (message : Str)
  | pathInfo (normalizedPath : Str)
deriving DecidableEq, Repr

/-- Observable actions of a handler: immediate sends, `setTimeout`-delayed
sends / PTY writes / kill escalations (delay in milliseconds; a delayed
action is dropped at fire time if its guard — the PTY still being alive —
fails, exactly as in the source), kill signals, and timer cancellation. -/
inductive Act
  | send (m : Msg)
  | delayedSend (ms : Nat) (m : Msg)
  | ptyWrite (data : Str)
  | delayedWrite (ms : Nat) (data : Str)
  | kill (pid : Nat) (signal : Str)
  | delayedKill (ms : Nat) (pid : Nat) (signal : Str)
  | clearTimer
deriving DecidableEq, Repr

/-- Is the action a kill signal (immediate or scheduled escalation)? -/
def isKillAct : Act → Bool
  | .kill _ _ => true
  | .delayedKill _ _ _ => true
  | _ => false

/-- A Connection Binding Table entry of `wsSessions`: the WebSocket object
(the `Map` key, whose live fields the sweeper reads) and the session ids
it has touched. -/
structure WsEntry where
  ws : WsObj
  sessions : List Str
deriving DecidableEq, Repr

/-- The server's global mutable state: `allSessions` and `wsSessions`. -/
structure ServerState where
  allSessions : List (Str × SessionRec)
  wsSessions : List WsEntry
deriving DecidableEq, Repr

/-- `allSessions.get(sessionId)`. -/
def lookupSession (st : ServerState) (sid : Str) : Option SessionRec :=
  (st.allSessions.find? (fun p => decide (p.1 = sid))).map Prod.snd

/-- `Map.set`: replace the entry if the key is present, else append. -/
def setAssoc (l : List (Str × SessionRec)) (sid : Str) (r : SessionRec) :
    List (Str × SessionRec) :=
  match l with
  | [] => [(sid, r)]
  | (k, v) :: rest => if k = sid then (sid, r) :: rest else (k, v) :: setAssoc rest sid r

/-- `Map.delete`. -/
def delAssoc (l : List (Str × SessionRec)) (sid : Str) : List (Str × SessionRec) :=
  l.filter (fun p => decide (p.1 ≠ sid))

/-- `wsSessions.get(ws)` (keyed by object identity). -/
def lookupWsSessions (st : ServerState) (wsId : Nat) : Option (List Str) :=
  (st.wsSessions.find? (fun e => e.ws.wsId == wsId)).map WsEntry.sessions

/-- `wsSessions.set(ws, sids)`. -/
def setWsSessions (l : List WsEntry) (ws : WsObj) (sids : List Str) : List WsEntry :=
  match l with
  | [] => [⟨ws, sids⟩]
  | e :: rest =>
      if e.ws.wsId = ws.wsId then ⟨ws, sids⟩ :: rest else e :: setWsSessions rest ws sids

/-- `setupSessionEventHandlers(ws, session)`: if handlers are already set
up, only reassign `currentWs` and return; otherwise remove all existing
`data`/`exit` listeners, mark the flag, and install one `data`, one
`exit` and one `error` listener with a fresh `outputBuffer`/`bufferTimer`
closure. -/
def setupSessionEventHandlers (ws : WsObj) (s : SessionRec) : SessionRec :=
  if s.handlersSetup then { s with currentWs := some ws }
  else
    { s with dataListeners := 1
             exitListeners := 1
             errorListeners := s.errorListeners + 1
             handlersSetup := true
             outputBuffer := []
             bufferTimerPending := false }

/-- The `flushBuffer` closure: send the accumulated output if it is
non-empty and the current WebSocket is open (clearing the accumulator and
stamping `lastBufferUpdate`); in every case the pending timer is
cleared. -/
def flushBuffer (now : Nat) (s : SessionRec) : SessionRec × List Act :=
  if !s.outputBuffer.isEmpty && wsLive s.currentWs then
    ({ s with outputBuffer := []
              lastBufferUpdate := now
              bufferTimerPending := false },
      [.send (.output s.outputBuffer)])
  else ({ s with bufferTimerPending := false }, [])

/-- Does the chunk contain a screen-clear (`ESC [2J`) or cursor-home
(`ESC [H`) sequence — the immediate-flush triggers? -/
def containsClearSeq (output : Str) : Bool :=
  decide (str "\x1b[2J" <:+: output) || decide (str "\x1b[H" <:+: output)

/-- One invocation of the PTY `data` handler body: if the current
WebSocket is open, append the chunk to both the in-flight accumulator and
the rolling `terminalBuffer` (with cap eviction), then either flush
immediately (screen-clear) or (re)schedule the single coalescing timer;
if no open WebSocket is bound, the chunk is dropped (only an error is
logged). -/
def onData (now : Nat) (chunk : Str) (s : SessionRec) : SessionRec × List Act :=
  if wsLive s.currentWs then
    let s1 := { s with outputBuffer := s.outputBuffer ++ chunk
                       terminalBuffer := appendTerminalBuffer s.terminalBuffer chunk
                       lastBufferUpdate := now
                       bufferTimerPending := false }
    if containsClearSeq chunk then flushBuffer now s1
    else ({ s1 with bufferTimerPending := true }, [])
  else (s, [])

/-- `n` successive invocations of the data handler body (the event
emitter calls each registered listener in turn). -/
def emitIter (now : Nat) (chunk : Str) : Nat → SessionRec → SessionRec × List Act
  | 0, s => (s, [])
  | n + 1, s =>
      let r := onData now chunk s
      let rest := emitIter now chunk n r.1
      (rest.1, r.2 ++ rest.2)

/-- Delivery of one PTY data chunk: the event emitter invokes the
installed data handler once per registered listener. -/
def emitData (now : Nat) (chunk : Str) (s : SessionRec) : SessionRec × List Act :=
  emitIter now chunk s.dataListeners s

/-- A data chunk followed by the coalescing timer firing (when one is
pending). -/
def emitDataThenFlush (now : Nat) (chunk : Str) (s : SessionRec) : SessionRec × List Act :=
  let r := emitData now chunk s
  if r.1.bufferTimerPending then
    let f := flushBuffer now r.1
    (f.1, r.2 ++ f.2)
  else r

/-- The fresh `sessionData` record built by `startClaudeCodeSession`
(before `setupSessionEventHandlers` runs on it). -/
def newSessionRecord (sessionId : Str) (pty : PtyProc) (cwd : Str)
    (createdAt now : Nat) (ws : WsObj) : SessionRec :=
  { sessionId := sessionId, pty := pty, workingDir := cwd, createdAt := createdAt,
    terminalBuffer := [], lastBufferUpdate := now, currentWs := some ws,
    handlersSetup := false, bufferTimerPending := false, outputBuffer := [],
    dataListeners := 0, exitListeners := 0, errorListeners := 0 }

/-- The record mutations of `reconnectToSession`: reassign `currentWs`,
null the buffer timer, then run `setupSessionEventHandlers`. -/
def reconnectRecord (ws : WsObj) (s : SessionRec) : SessionRec :=
  setupSessionEventHandlers ws { s with currentWs := some ws, bufferTimerPending := false }

/-- `cleanupSessionById(sessionId)`: clear any pending flush timer, send
`SIGTERM` if the process is not already dead (scheduling a `SIGKILL`
escalation after 5 s), remove the session from the registry and strip its
id from every Connection Binding Table entry. -/
def cleanupSessionById (st : ServerState) (sid : Str) : ServerState × List Act :=
  match lookupSession st sid with
  | none => (st, [])
  | some s =>
      (⟨delAssoc st.allSessions sid,
        st.wsSessions.map (fun e => ⟨e.ws, e.sessions.erase sid⟩)⟩,
       (if s.bufferTimerPending then [.clearTimer] else [])
       ++ (if !s.pty.killed then
            [.kill s.pty.pid (str "SIGTERM"),
             .delayedKill 5000 s.pty.pid (str "SIGKILL")]
          else []))

/-- `reconnectToSession(ws, sessionId)` (the buffer-restore revision):
unknown or dead sessions get an error reply; otherwise the session is
added to this connection's binding-table entry, the record is re-bound
(`reconnectRecord`), a `session-reconnected` reply is sent, and then
exactly one of the two restore strategies runs, chosen on the rolling
buffer: non-empty ⇒ a single delayed (500 ms) `buffer-restore` carrying
the whole buffer; empty ⇒ an immediate `terminal-refresh` plus a delayed
(200 ms) `'\r'` write to the process. -/
def reconnectToSession (now : Nat) (st : ServerState) (ws : WsObj) (sid : Str) :
    ServerState × List Act :=
  match lookupSession st sid with
  | none => (st, [.send (.errorMsg (str "Session not found or terminated"))])
  | some s =>
      if s.pty.killed then (st, [.send (.errorMsg (str "Session not found or terminated"))])
      else
        let cur := (lookupWsSessions st ws.wsId).getD []
        let newList := if sid ∈ cur then cur else cur ++ [sid]
        let s1 := reconnectRecord ws s
        let s2 := if !s.terminalBuffer.isEmpty then { s1 with lastBufferUpdate := now } else s1
        (⟨setAssoc st.allSessions sid s2, setWsSessions st.wsSessions ws newList⟩,
         [.send (.sessionReconnected sid s.workingDir)]
         ++ (if !s.terminalBuffer.isEmpty then
              [.delayedSend 500 (.bufferRestore sid s.terminalBuffer)]
            else
              [.send (.terminalRefresh sid), .delayedWrite 200 (str "\r")]))

/-- The first session of this connection that is alive and currently
owned by it (`handleInput`'s fallback scan). -/
def firstOwnedActive (st : ServerState) (ws : WsObj) : Option Str :=
  ((lookupWsSessions st ws.wsId).getD []).find? (fun sid =>
    match lookupSession st sid with
    | some s => !s.pty.killed && wsSame s.currentWs ws
    | none => false)

/-- JavaScript truthiness of an optional string (`if (targetSessionId)`):
`undefined` and the empty string are falsy. -/
def jsTruthy : Option Str → Bool
  | none => false
  | some s => !s.isEmpty

/-- `handleInput(ws, input, targetSessionId)`: returns the PTY writes
`(sessionId, data)` it performs and the messages it sends back to the
client (always none — every non-write branch only logs). -/
def handleInput (st : ServerState) (ws : WsObj) (input : Str)
    (targetSessionId : Option Str) : List (Str × Str) × List Msg :=
  if jsTruthy targetSessionId then
    match targetSessionId with
    | some t =>
        (match lookupSession st t with
         | some s => if !s.pty.killed then [(t, input)] else []
         | none => [], [])
    | none => ([], [])
  else
    (match firstOwnedActive st ws with
     | some sid => [(sid, input)]
     | none => [], [])

/-- The PTY `exit` handler: deliver an `exit` message with the exit code
to the bound connection when it is open, then clean the session up via
`cleanupSessionById`.  `s` is the session record the handler closure
captured (the registry's record for `sid`). -/
def onExit (st : ServerState) (sid : Str) (s : SessionRec) (code : Int) :
    ServerState × List Act :=
  let c := cleanupSessionById st sid
  (c.1, (if wsLive s.currentWs then [.send (.exitMsg code)] else []) ++ c.2)

/-- The staleness threshold of the sweeper (3 days, in ms). -/
def staleThreshold : Nat := 259200000

/-- The sweeper interval (`setInterval(..., 10000)`). -/
def sweepIntervalMs : Nat := 10000

/-- Does any binding-table entry that has touched `sid` have a truthy
`lastSeen` within the staleness threshold of `now`?  (The sweeper's
`hasActiveConnection` scan; note it reads `lastSeen`, not the socket's
open/closed state.) -/
def hasActiveConnection (entries : List WsEntry) (sid : Str) (now : Nat) : Bool :=
  entries.any (fun e =>
    decide (sid ∈ e.sessions) && (e.ws.lastSeen != 0)
      && decide (now - e.ws.lastSeen ≤ staleThreshold))

/-- The sweeper's `forEach` body, applied to the registry entries in
order: every live session with no recently-seen tracked connection is
cleaned up.  Returns the new state and the ids of the sessions
terminated. -/
def sweepGo (now : Nat) : List (Str × SessionRec) → ServerState → ServerState × List Str
  | [], st => (st, [])
  | p :: ps, st =>
      if !p.2.pty.killed && !hasActiveConnection st.wsSessions p.1 now then
        ((sweepGo now ps (cleanupSessionById st p.1).1).1,
          p.1 :: (sweepGo now ps (cleanupSessionById st p.1).1).2)
      else sweepGo now ps st

/-- One run of the periodic staleness sweeper. -/
def sweepStep (now : Nat) (st : ServerState) : ServerState × List Str :=
  sweepGo now st.allSessions st

/-- `workingDir || process.cwd()`: an absent or empty requested directory
is replaced by the server's current working directory. -/
def effectiveWorkingDir (workingDir : Option Str) (cwd : Str) : Str :=
  match workingDir with
  | none => cwd
  | some p => if p = [] then cwd else p

/-- `validateAndCreatePath`: validation followed by directory creation;
the filesystem outcome of `mkdirSync` is an explicit parameter
(`mkdirError = some msg` models a creation failure with the mapped error
message). -/
def validateAndCreatePath (workingDirPrefix cwd userPath : Str)
    (mkdirError : Option Str) : PathValidation :=
  match validateAndNormalizePath workingDirPrefix cwd userPath with
  | .invalid e => .invalid e
  | .valid r =>
      match mkdirError with
      | some e => .invalid e
      | none => .valid r

/-- `startClaudeCodeSession(ws, workingDir)`.  External inputs are
explicit parameters: the generated session id (`Math.random`, drawn with
no uniqueness check against the registry), the spawned PTY handle, the
clock, the filesystem outcome, and whether the async `which claude` probe
succeeds (its failure message is sent asynchronously; execution proceeds
to spawn regardless, so the act is listed last). -/
def startClaudeCodeSession (st : ServerState) (ws : WsObj) (workingDir : Option Str)
    (workingDirPrefix cwd : Str) (sid : Str) (pty : PtyProc) (createdAt now : Nat)
    (mkdirError : Option Str) (claudeFound : Bool) : ServerState × List Act :=
  match validateAndCreatePath workingDirPrefix cwd
      (effectiveWorkingDir workingDir cwd) mkdirError with
  | .invalid e => (st, [.send (.errorMsg (str "Invalid working directory: " ++ e))])
  | .valid r =>
      let record :=
        setupSessionEventHandlers ws (newSessionRecord sid pty r.normalizedPath createdAt now ws)
      (⟨setAssoc st.allSessions sid record,
        setWsSessions st.wsSessions ws (((lookupWsSessions st ws.wsId).getD []) ++ [sid])⟩,
       [.send (.pathInfo r.normalizedPath), .send (.sessionStarted sid)]
       ++ (if claudeFound then []
           else [.send (.errorMsg (str "Claude CLI not found. Please install Claude Code CLI first."))]))

/-- Sequential arrival of a list of PTY data chunks (one `data` event per
chunk, accumulating the emitted actions). -/
def pipeRun (now : Nat) (chunks : List Str) (s : SessionRec) : SessionRec × List Act :=
  match chunks with
  | [] => (s, [])
  | c :: cs =>
      let r := onData now c s
      let rest := pipeRun now cs r.1
      (rest.1, r.2 ++ rest.2)

/-- `generateSessionId`: `Math.random().toString(36).substr(2, 9)` — the
base-36 expansion of the random draw is the parameter; no registry is
consulted, and the result has at most 9 characters. -/
def generateSessionId (randomStr : Str) : Str := (randomStr.drop 2).take 9

/-! ## Theorems -/

theorem length_appendTerminalBuffer_le (buf out : Str) :
    (appendTerminalBuffer buf out).length ≤ max (buf.length + out.length) terminalBufferCap := by
  unfold appendTerminalBuffer
  dsimp only
  split
  · rw [List.length_drop]
    omega
  · rw [List.length_append]
    omega

theorem lastUnits_nil (n : Nat) : lastUnits n ([] : Str) = [] := by
  simp [lastUnits]

theorem appendTerminalBuffer_lastUnits (h out : Str) :
    appendTerminalBuffer (lastUnits terminalBufferCap h) out
      = lastUnits terminalBufferCap (h ++ out) := by
  unfold appendTerminalBuffer lastUnits
  dsimp only
  rcases le_or_lt h.length terminalBufferCap with hle | hgt
  · have h0 : h.length - terminalBufferCap = 0 := Nat.sub_eq_zero_of_le hle
    rw [h0, List.drop_zero]
    split
    · rfl
    · next hnot =>
      have hx : (h ++ out).length ≤ terminalBufferCap := Nat.le_of_not_lt hnot
      have h1 : (h ++ out).length - terminalBufferCap = 0 := Nat.sub_eq_zero_of_le hx
      rw [h1, List.drop_zero]
  · have hlen : (h.drop (h.length - terminalBufferCap)).length = terminalBufferCap := by
      rw [List.length_drop]
      omega
    rcases Nat.eq_zero_or_pos out.length with hout0 | houtpos
    · have hnil : out = [] := List.eq_nil_of_length_eq_zero hout0
      subst hnil
      simp only [List.append_nil]
      rw [hlen, if_neg (lt_irrefl terminalBufferCap)]
    · have hblen : (h.drop (h.length - terminalBufferCap) ++ out).length
          = terminalBufferCap + out.length := by
        rw [List.length_append, hlen]
      have hcond : (h.drop (h.length - terminalBufferCap) ++ out).length
          > terminalBufferCap := by
        rw [hblen]
        omega
      rw [if_pos hcond, hblen, List.length_append,
        List.drop_append_eq_append_drop, List.drop_append_eq_append_drop,
        List.drop_drop, hlen]
      have e1 : h.length - terminalBufferCap + (terminalBufferCap + out.length - terminalBufferCap)
          = h.length + out.length - terminalBufferCap := by omega
      have e2 : terminalBufferCap + out.length - terminalBufferCap - terminalBufferCap
          = h.length + out.length - terminalBufferCap - h.length := by omega
      rw [e1, e2]

theorem foldl_appendTerminalBuffer (chunks : List Str) (h : Str) :
    chunks.foldl appendTerminalBuffer (lastUnits terminalBufferCap h)
      = lastUnits terminalBufferCap (h ++ chunks.flatten) := by
  induction chunks generalizing h with
  | nil => rw [List.foldl_nil, List.flatten_nil, List.append_nil]
  | cons c cs ih =>
      rw [List.foldl_cons, List.flatten_cons, appendTerminalBuffer_lastUnits, ih,
        List.append_assoc]

/-- **C4.** For every session, after any number of appends the rolling
buffer never exceeds the 50,000-unit cap, and its content is exactly the
most recent at-most-50,000 units of the appended output (oldest data
evicted first, slice-from-tail). -/
theorem rollingBuffer_cap_invariant (chunks : List Str) :
    ((chunks.foldl appendTerminalBuffer []).length ≤ terminalBufferCap)
    ∧ chunks.foldl appendTerminalBuffer []
        = lastUnits terminalBufferCap chunks.flatten := by
  have h0 : chunks.foldl appendTerminalBuffer []
      = lastUnits terminalBufferCap chunks.flatten := by
    rw [← lastUnits_nil terminalBufferCap, foldl_appendTerminalBuffer, List.nil_append]
  refine ⟨?_, h0⟩
  rw [h0]
  unfold lastUnits
  rw [List.length_drop]
  omega

/-- **C9 counterexample.** With the sandbox root `WORKING_DIR_PREFIX =
"/tmp/sandbox"`, the user input `".."` passes every validation check, yet
resolves to `"/tmp"` — the parent of the sandbox root, neither the root
itself nor beneath it.  The claim that accepted inputs can never escape
the configured root is therefore false. -/
theorem validatePath_escape_counterexample :
    normalizedOf (validateAndNormalizePath (str "/tmp/sandbox") (str "/cwd") (str ".."))
      = some (str "/tmp")
    ∧ ¬ (str "/tmp" = str "/tmp/sandbox" ∨ (str "/tmp/sandbox" ++ ['/']) <+: str "/tmp") := by
  decide

/-! ### Structure of split/resolve, toward the sandbox-containment theorem -/
theorem splitSlash_ne_nil (t : Str) : splitSlash t ≠ [] := by
  cases t with
  | nil => simp [splitSlash]
  | cons c rest =>
      unfold splitSlash
      split
      · simp
      · split <;> simp

theorem splitSlash_no_slash (t : Str) (h : '/' ∉ t) : splitSlash t = [t] := by
  induction t with
  | nil => rfl
  | cons c rest ih =>
      have hc : ¬ c = '/' := fun hc => h (hc ▸ List.mem_cons_self c rest)
      have hr : '/' ∉ rest := fun hm => h (List.mem_cons_of_mem c hm)
      unfold splitSlash
      rw [if_neg hc, ih hr]

theorem splitSlash_nil : splitSlash [] = [[]] := rfl

theorem splitSlash_cons (c : Char) (rest : Str) :
    splitSlash (c :: rest)
      = if c = '/' then [] :: splitSlash rest
        else match splitSlash rest with
             | [] => [[c]]
             | s :: ss => (c :: s) :: ss := by
  conv_lhs => unfold splitSlash

theorem splitSlash_append_slash (a b : Str) :
    splitSlash (a ++ '/' :: b) = splitSlash a ++ splitSlash b := by
  induction a with
  | nil =>
      rw [List.nil_append, splitSlash_cons, if_pos rfl, splitSlash_nil]
      rfl
  | cons c a' ih =>
      rw [List.cons_append, splitSlash_cons, splitSlash_cons]
      by_cases hc : c = '/'
      · rw [if_pos hc, if_pos hc, ih]
        rfl
      · obtain ⟨s, ss, hss⟩ : ∃ s ss, splitSlash a' = s :: ss := by
          cases h' : splitSlash a' with
          | nil => exact absurd h' (splitSlash_ne_nil a')
          | cons s ss => exact ⟨s, ss, rfl⟩
        rw [if_neg hc, if_neg hc, ih, hss, List.cons_append]
        rfl

theorem joinSegs_cons_cons (s : Str) (x : Str) (xs : List Str) :
    joinSegs (s :: x :: xs) = s ++ '/' :: joinSegs (x :: xs) := rfl

theorem joinSegs_ne_nil (segs : List Str) (hne : segs ≠ [])
    (h : ∀ s ∈ segs, s ≠ []) : joinSegs segs ≠ [] := by
  cases segs with
  | nil => exact absurd rfl hne
  | cons s rest =>
      cases rest with
      | nil => exact h s (List.mem_cons_self s [])
      | cons x xs =>
          rw [joinSegs_cons_cons]
          intro hcontra
          have := List.append_eq_nil.mp hcontra
          exact absurd this.2 (List.cons_ne_nil _ _)

theorem joinSegs_append (a b : List Str) (ha : a ≠ []) (hb : b ≠ []) :
    joinSegs (a ++ b) = joinSegs a ++ '/' :: joinSegs b := by
  induction a with
  | nil => exact absurd rfl ha
  | cons s a' ih =>
      cases a' with
      | nil =>
          cases b with
          | nil => exact absurd rfl hb
          | cons x xs => rfl
      | cons y ys =>
          have ihy := ih (List.cons_ne_nil y ys)
          rw [List.cons_append] at ihy
          rw [List.cons_append, List.cons_append, joinSegs_cons_cons, ihy,
            joinSegs_cons_cons]
          simp

theorem splitSlash_joinSegs (segs : List Str) (hne : segs ≠ [])
    (hns : ∀ s ∈ segs, '/' ∉ s) : splitSlash (joinSegs segs) = segs := by
  induction segs with
  | nil => exact absurd rfl hne
  | cons s rest ih =>
      cases rest with
      | nil => exact splitSlash_no_slash s (hns s (List.mem_cons_self s []))
      | cons x xs =>
          rw [joinSegs_cons_cons, splitSlash_append_slash,
            splitSlash_no_slash s (hns s (List.mem_cons_self s _)),
            ih (List.cons_ne_nil x xs) (fun t ht => hns t (List.mem_cons_of_mem s ht))]
          rfl

theorem resolveSegs_cons (acc : List Str) (s : Str) (rest : List Str) :
    resolveSegs acc (s :: rest)
      = if s = [] ∨ s = ['.'] then resolveSegs acc rest
        else if s = ['.', '.'] then resolveSegs acc.dropLast rest
        else resolveSegs (acc ++ [s]) rest := rfl

theorem resolveSegs_append (xs ys : List Str) (acc : List Str) :
    resolveSegs acc (xs ++ ys) = resolveSegs (resolveSegs acc xs) ys := by
  induction xs generalizing acc with
  | nil => rfl
  | cons s rest ih =>
      rw [List.cons_append, resolveSegs_cons, resolveSegs_cons]
      split
      · exact ih acc
      · split
        · exact ih acc.dropLast
        · exact ih (acc ++ [s])

theorem resolveSegs_reg (xs : List Str) (acc : List Str) (h : ∀ s ∈ xs, regSeg s) :
    resolveSegs acc xs = acc ++ xs := by
  induction xs generalizing acc with
  | nil => simp [resolveSegs]
  | cons s rest ih =>
      obtain ⟨h1, h2, h3⟩ := h s (List.mem_cons_self s rest)
      rw [resolveSegs_cons, if_neg (by tauto), if_neg h3,
        ih (acc ++ [s]) (fun t ht => h t (List.mem_cons_of_mem s ht))]
      simp

theorem dropWhile_slash (t : Str) (hsl : '/' ∈ t) :
    ∃ rest, t.dropWhile (fun c => c != '/') = '/' :: rest := by
  cases hd : t.dropWhile (fun c => c != '/') with
  | nil =>
      exfalso
      have hsplit := List.takeWhile_append_dropWhile (fun c => c != '/') t
      rw [hd, List.append_nil] at hsplit
      rw [← hsplit] at hsl
      have := List.mem_takeWhile_imp hsl
      simp at this
  | cons x xs =>
      have hmatch := List.head?_dropWhile_not (fun c => c != '/') t
      rw [hd] at hmatch
      simp only [List.head?_cons] at hmatch
      have hx : x = '/' := by simpa using hmatch
      exact ⟨xs, by rw [hx]⟩

theorem splitSlash_structure_fuel (n : Nat) :
    ∀ t : Str, t.length ≤ n →
      ¬ (['/', '/'] <:+: t) → ¬ (['.', '/'] <:+: t) → t.head? ≠ some '/' →
      ∀ s ∈ (splitSlash t).dropLast, regSeg s := by
  induction n with
  | zero =>
      intro t hlen _ _ _ s hs
      have ht : t = [] := by
        cases t with
        | nil => rfl
        | cons c cs => simp at hlen
      subst ht
      rw [splitSlash_nil] at hs
      simp at hs
  | succ n ih =>
      intro t hlen h2 hd hh s hs
      by_cases hsl : '/' ∈ t
      · obtain ⟨rest, hrest⟩ := dropWhile_slash t hsl
        have hsplit : t = t.takeWhile (fun c => c != '/') ++ '/' :: rest := by
          conv_lhs => rw [← List.takeWhile_append_dropWhile (fun c => c != '/') t]
          rw [hrest]
        have hanoslash : '/' ∉ t.takeWhile (fun c => c != '/') := by
          intro hmem
          have := List.mem_takeWhile_imp hmem
          simp at this
        have hrestlen : rest.length ≤ n := by
          have hl := congrArg List.length hsplit
          simp only [List.length_append, List.length_cons] at hl
          omega
        have hane : t.takeWhile (fun c => c != '/') ≠ [] := by
          intro h0
          rw [h0, List.nil_append] at hsplit
          rw [hsplit] at hh
          simp at hh
        have hrestsuf : rest <:+ t := by
          refine ⟨t.takeWhile (fun c => c != '/') ++ ['/'], ?_⟩
          conv_rhs => rw [hsplit]
          simp
        have hrest2 : ¬ (['/', '/'] <:+: rest) := fun hin => h2 (hin.trans hrestsuf.isInfix)
        have hrestd : ¬ (['.', '/'] <:+: rest) := fun hin => hd (hin.trans hrestsuf.isInfix)
        have hresth : rest.head? ≠ some '/' := by
          intro hhd
          cases rest with
          | nil => simp at hhd
          | cons r rs =>
              simp only [List.head?_cons, Option.some_inj] at hhd
              subst hhd
              refine h2 ⟨t.takeWhile (fun c => c != '/'), rs, ?_⟩
              conv_rhs => rw [hsplit]
              simp
        have hsegs : splitSlash t
            = t.takeWhile (fun c => c != '/') :: splitSlash rest := by
          conv_lhs => rw [hsplit]
          rw [splitSlash_append_slash, splitSlash_no_slash _ hanoslash]
          rfl
        rw [hsegs] at hs
        obtain ⟨s1, ss1, hss1⟩ : ∃ s1 ss1, splitSlash rest = s1 :: ss1 := by
          cases h' : splitSlash rest with
          | nil => exact absurd h' (splitSlash_ne_nil rest)
          | cons s1 ss1 => exact ⟨s1, ss1, rfl⟩
        rw [hss1] at hs
        rw [show (t.takeWhile (fun c => c != '/') :: s1 :: ss1).dropLast
              = t.takeWhile (fun c => c != '/') :: (s1 :: ss1).dropLast from rfl] at hs
        rcases List.mem_cons.mp hs with heq | hmem
        · subst heq
          refine ⟨hane, ?_, ?_⟩
          · intro h0
            rw [h0] at hsplit
            exact hd ⟨[], rest, by rw [hsplit]; rfl⟩
          · intro h0
            rw [h0] at hsplit
            exact hd ⟨['.'], rest, by rw [hsplit]; rfl⟩
        · exact ih rest hrestlen hrest2 hrestd hresth s (by rw [hss1]; exact hmem)
      · rw [splitSlash_no_slash t hsl] at hs
        simp at hs

theorem splitSlash_structure (t : Str)
    (h2 : ¬ (['/', '/'] <:+: t)) (hd : ¬ (['.', '/'] <:+: t))
    (hh : t.head? ≠ some '/') :
    ∀ s ∈ (splitSlash t).dropLast, regSeg s :=
  splitSlash_structure_fuel t.length t le_rfl h2 hd hh

theorem getLast?_ne_slash_of_no_slash (s : Str) (h : '/' ∉ s) (hne : s ≠ []) :
    s.getLast? ≠ some '/' := by
  rw [List.getLast?_eq_getLast s hne]
  intro heq
  have hmem := List.getLast_mem hne
  rw [Option.some_inj.mp heq] at hmem
  exact h hmem

theorem joinSegs_getLast?_ne_slash (segs : List Str) (hne : segs ≠ [])
    (h : ∀ s ∈ segs, s ≠ [] ∧ '/' ∉ s) : (joinSegs segs).getLast? ≠ some '/' := by
  induction segs with
  | nil => exact absurd rfl hne
  | cons s rest ih =>
      cases rest with
      | nil =>
          obtain ⟨h1, h2⟩ := h s (List.mem_cons_self s [])
          exact getLast?_ne_slash_of_no_slash s h2 h1
      | cons x xs =>
          have hrest : ∀ u ∈ x :: xs, u ≠ [] ∧ '/' ∉ u :=
            fun u hu => h u (List.mem_cons_of_mem s hu)
          have hjne : joinSegs (x :: xs) ≠ [] :=
            joinSegs_ne_nil (x :: xs) (List.cons_ne_nil x xs) (fun u hu => (hrest u hu).1)
          rw [joinSegs_cons_cons, List.getLast?_append_of_ne_nil s (List.cons_ne_nil _ _),
            show ('/' :: joinSegs (x :: xs)) = ['/'] ++ joinSegs (x :: xs) from rfl,
            List.getLast?_append_of_ne_nil ['/'] hjne]
          exact ih (List.cons_ne_nil x xs) hrest

theorem joinPath_getLast?_ne_slash (segs : List Str) (hne : segs ≠ [])
    (h : ∀ s ∈ segs, s ≠ [] ∧ '/' ∉ s) : (joinPath segs).getLast? ≠ some '/' := by
  have hjne : joinSegs segs ≠ [] := joinSegs_ne_nil segs hne (fun u hu => (h u hu).1)
  rw [joinPath, show ('/' :: joinSegs segs) = ['/'] ++ joinSegs segs from rfl,
    List.getLast?_append_of_ne_nil ['/'] hjne]
  exact joinSegs_getLast?_ne_slash segs hne h

theorem joinPath_append_cases (a b : List Str) (ha : a ≠ []) :
    joinPath (a ++ b) = joinPath a ∨ (joinPath a ++ ['/']) <+: joinPath (a ++ b) := by
  cases b with
  | nil => exact Or.inl (by rw [List.append_nil])
  | cons x xs =>
      right
      rw [joinPath, joinPath, joinSegs_append a (x :: xs) ha (List.cons_ne_nil x xs)]
      exact ⟨joinSegs (x :: xs), by simp⟩

theorem stripLead_suffix (T : Str) :
    (if T.head? = some '/' then T.drop 1 else T) <:+ T := by
  split
  · exact List.drop_suffix 1 T
  · exact List.suffix_refl T

theorem stripLead_head (T : Str) (h6 : ¬ (['/', '/'] <:+: T)) :
    (if T.head? = some '/' then T.drop 1 else T).head? ≠ some '/' := by
  split
  · next hhead =>
      cases T with
      | nil => simp
      | cons c T' =>
          simp only [List.head?_cons, Option.some_inj] at hhead
          subst hhead
          rw [show (('/' : Char) :: T').drop 1 = T' from rfl]
          intro hh2
          cases T' with
          | nil => simp at hh2
          | cons d T'' =>
              simp only [List.head?_cons, Option.some_inj] at hh2
              subst hh2
              exact h6 ⟨[], T'', rfl⟩
  · next hhead => exact hhead

theorem resolve_after_sandbox (segsP : List Str) (NL : Str)
    (hPsegs : ∀ s ∈ segsP, regSeg s ∧ '/' ∉ s) (hPne : segsP ≠ [])
    (hNL2 : ¬ (['/', '/'] <:+: NL)) (hNLd : ¬ (['.', '/'] <:+: NL))
    (hNLh : NL.head? ≠ some '/') :
    resolveAbs (joinPath segsP ++ '/' :: NL) = joinPath segsP
    ∨ (joinPath segsP ++ ['/']) <+: resolveAbs (joinPath segsP ++ '/' :: NL)
    ∨ resolveAbs (joinPath segsP ++ '/' :: NL) = joinPath segsP.dropLast := by
  have hPnoslash : ∀ s ∈ segsP, '/' ∉ s := fun s hs => (hPsegs s hs).2
  have hreg : ∀ s ∈ segsP, regSeg s := fun s hs => (hPsegs s hs).1
  have hUne : splitSlash NL ≠ [] := splitSlash_ne_nil NL
  obtain ⟨B, L, hBL, hBreg⟩ : ∃ B L, splitSlash NL = B ++ [L] ∧ ∀ s ∈ B, regSeg s :=
    ⟨(splitSlash NL).dropLast, (splitSlash NL).getLast hUne,
      (List.dropLast_append_getLast hUne).symm, splitSlash_structure NL hNL2 hNLd hNLh⟩
  have hallreg : ∀ s ∈ segsP ++ B, regSeg s := by
    intro s hs
    rcases List.mem_append.mp hs with h | h
    · exact hreg s h
    · exact hBreg s h
  have hsplitP : splitSlash (joinPath segsP) = [] :: segsP := by
    rw [joinPath, splitSlash_cons, if_pos rfl, splitSlash_joinSegs segsP hPne hPnoslash]
  have hres : resolveAbs (joinPath segsP ++ '/' :: NL)
      = joinPath (resolveSegs (segsP ++ B) [L]) := by
    unfold resolveAbs
    rw [splitSlash_append_slash, hsplitP, hBL, List.cons_append, resolveSegs_cons,
      if_pos (Or.inl rfl), ← List.append_assoc, resolveSegs_append,
      resolveSegs_reg (segsP ++ B) [] hallreg, List.nil_append]
  rw [hres, resolveSegs_cons]
  split
  · rw [show resolveSegs (segsP ++ B) [] = segsP ++ B from rfl]
    rcases joinPath_append_cases segsP B hPne with h | h
    · exact Or.inl h
    · exact Or.inr (Or.inl h)
  · split
    · rw [show resolveSegs (segsP ++ B).dropLast [] = (segsP ++ B).dropLast from rfl]
      cases B with
      | nil =>
          rw [List.append_nil]
          exact Or.inr (Or.inr rfl)
      | cons b bs =>
          rw [List.dropLast_append_of_ne_nil segsP (List.cons_ne_nil b bs)]
          rcases joinPath_append_cases segsP (b :: bs).dropLast hPne with h | h
          · exact Or.inl h
          · exact Or.inr (Or.inl h)
    · rw [show resolveSegs ((segsP ++ B) ++ [L]) [] = (segsP ++ B) ++ [L] from rfl,
        List.append_assoc]
      rcases joinPath_append_cases segsP (B ++ [L]) hPne with h | h
      · exact Or.inl h
      · exact Or.inr (Or.inl h)

/-- **C9 (amended).** With `WORKING_DIR_PREFIX` set to a non-root,
normalized absolute path `P` (written as its segment list), every user
input accepted by `validateAndNormalizePath` yields a normalized path that
is `P` itself, lies strictly beneath `P`, or — only in the one escape the
checks miss, a trailing `..` segment with nothing before it (inputs such
as `".."` or `"/.."`) — is the parent directory of `P`.  The escape can
climb exactly one level, never further, because any deeper `..` sequence
contains `"../"` or `"./"` and is rejected. -/
theorem validatePath_sandbox_containment
    (segsP : List Str) (cwd userPath : Str) (res : ValidPath)
    (hPsegs : ∀ s ∈ segsP, regSeg s ∧ '/' ∉ s)
    (hPne : segsP ≠ [])
    (hPtrim : jsTrim (joinPath segsP) = joinPath segsP)
    (hv : validateAndNormalizePath (joinPath segsP) cwd userPath = .valid res) :
    res.normalizedPath = joinPath segsP
    ∨ (joinPath segsP ++ ['/']) <+: res.normalizedPath
    ∨ res.normalizedPath = joinPath segsP.dropLast := by
  unfold validateAndNormalizePath at hv
  split_ifs at hv with hc1 hc2 hc3 hc4 hc5 hc6
  injection hv with hres
  subst hres
  dsimp only
  have hslash2 : str "//" = ['/', '/'] := rfl
  have hdotslash : str "./" = ['.', '/'] := rfl
  rw [hslash2] at hc6
  rw [hdotslash] at hc5
  have hPne' : joinPath segsP ≠ [] := by
    rw [joinPath]
    exact List.cons_ne_nil _ _
  have hPlast : (joinPath segsP).getLast? ≠ some '/' :=
    joinPath_getLast?_ne_slash segsP hPne
      (fun s hs => ⟨((hPsegs s hs).1).1, (hPsegs s hs).2⟩)
  have hcomb : combinedPath (joinPath segsP) (jsTrim userPath)
      = joinPath segsP ++ '/' ::
          (if (jsTrim userPath).head? = some '/' then (jsTrim userPath).drop 1
           else jsTrim userPath) := by
    unfold combinedPath
    rw [hPtrim, if_neg hPne', if_neg hPlast, List.append_assoc, List.singleton_append]
  have hsuf := stripLead_suffix (jsTrim userPath)
  have hNL2 : ¬ (['/', '/'] <:+:
      (if (jsTrim userPath).head? = some '/' then (jsTrim userPath).drop 1
       else jsTrim userPath)) := fun hin => hc6 (hin.trans hsuf.isInfix)
  have hNLd : ¬ (['.', '/'] <:+:
      (if (jsTrim userPath).head? = some '/' then (jsTrim userPath).drop 1
       else jsTrim userPath)) := fun hin => hc5 (hin.trans hsuf.isInfix)
  have hNLh := stripLead_head (jsTrim userPath) hc6
  have hhead : (joinPath segsP ++ '/' ::
      (if (jsTrim userPath).head? = some '/' then (jsTrim userPath).drop 1
       else jsTrim userPath)).head? = some '/' := by
    rw [joinPath, List.cons_append, List.head?_cons]
  have hfinal : resolvePath cwd (combinedPath (joinPath segsP) (jsTrim userPath))
      = resolveAbs (joinPath segsP ++ '/' ::
          (if (jsTrim userPath).head? = some '/' then (jsTrim userPath).drop 1
           else jsTrim userPath)) := by
    rw [hcomb]
    unfold resolvePath
    rw [if_pos hhead]
  rw [hfinal]
  exact resolve_after_sandbox segsP _ hPsegs hPne hNL2 hNLd hNLh

theorem validatePath_sandbox_containment_witness :
    (str "/tmp/sandbox/a" : Str) = joinPath [str "tmp", str "sandbox"]
    ∨ (joinPath [str "tmp", str "sandbox"] ++ ['/']) <+: str "/tmp/sandbox/a"
    ∨ (str "/tmp/sandbox/a" : Str) = joinPath ([str "tmp", str "sandbox"]).dropLast := by
  have h := validatePath_sandbox_containment [str "tmp", str "sandbox"] (str "/cwd")
    (str "a") ⟨str "/tmp/sandbox/a", str "/tmp/sandbox/a", str "a", true⟩
    (by decide) (by decide) (by decide) (by decide)
  exact h

/-! ### Handler installation guard (C1) and reconnect strategies (C2) -/
theorem setup_already (w : WsObj) (t : SessionRec) (h : t.handlersSetup = true) :
    setupSessionEventHandlers w t = { t with currentWs := some w } := by
  unfold setupSessionEventHandlers
  rw [if_pos h]

theorem reconnectRecord_already (w : WsObj) (t : SessionRec) (h : t.handlersSetup = true) :
    reconnectRecord w t = { t with currentWs := some w, bufferTimerPending := false } := by
  unfold reconnectRecord
  rw [setup_already w { t with currentWs := some w, bufferTimerPending := false } h]

theorem emitIter_one (now : Nat) (chunk : Str) (s : SessionRec) :
    emitIter now chunk 1 s = ((onData now chunk s).1, (onData now chunk s).2 ++ []) := rfl

theorem foldl_reconnect_shape (l : List WsObj) (t : SessionRec)
    (h : t.handlersSetup = true) (hb : t.bufferTimerPending = false) :
    ∃ ows, l.foldl (fun u w => reconnectRecord w u) t = { t with currentWs := ows } := by
  induction l generalizing t with
  | nil => exact ⟨t.currentWs, rfl⟩
  | cons w ws ih =>
      rw [List.foldl_cons, reconnectRecord_already w t h]
      have heq : ({ t with currentWs := some w, bufferTimerPending := false } : SessionRec)
          = { t with currentWs := some w } := by
        rw [← hb]
      rw [heq]
      obtain ⟨ows, hows⟩ := ih { t with currentWs := some w } h hb
      exact ⟨ows, hows⟩

theorem one_chunk_one_message (tnow : Nat) (chunk : Str) (ows : Option WsObj)
    (sid : Str) (pty : PtyProc) (wd : Str) (ca lbu : Nat) (tb : Str) (errl : Nat)
    (hlive : wsLive ows = true) (hne : chunk ≠ []) :
    (emitDataThenFlush tnow chunk
      ⟨sid, pty, wd, ca, tb, lbu, ows, true, false, [], 1, 1, errl⟩).2
      = [Act.send (Msg.output chunk)] := by
  have hnotempty : chunk.isEmpty = false := by
    cases chunk with
    | nil => exact absurd rfl hne
    | cons c cs => rfl
  by_cases hc : containsClearSeq chunk = true
  · simp [emitDataThenFlush, emitData, emitIter_one, onData, flushBuffer, hlive, hc,
      hnotempty]
  · simp [emitDataThenFlush, emitData, emitIter_one, onData, flushBuffer, hlive, hc,
      hnotempty]

/-- **C1.** Over a Session Record's lifetime, `handlersSetup` goes from
false (at creation) to true (at the single installation in
`startClaudeCodeSession`), and every later `setupSessionEventHandlers`
call — in particular each of N `reconnect-session` requests — only
reassigns the `currentWs` reference; after any number of reconnects
exactly one data listener and one exit listener remain installed, and a
single PTY data chunk produces exactly one delivered `output` message,
never N. -/
theorem handlersSetup_once (sessionId : Str) (pty : PtyProc) (cwd : Str)
    (createdAt now tnow : Nat) (ws0 : WsObj) (reconnects : List WsObj) (chunk : Str)
    (hchunk : chunk ≠ []) :
    (newSessionRecord sessionId pty cwd createdAt now ws0).handlersSetup = false
    ∧ (setupSessionEventHandlers ws0
        (newSessionRecord sessionId pty cwd createdAt now ws0)).handlersSetup = true
    ∧ (∀ (w : WsObj) (t : SessionRec), t.handlersSetup = true →
        setupSessionEventHandlers w t = { t with currentWs := some w })
    ∧ (reconnects.foldl (fun u w => reconnectRecord w u)
        (setupSessionEventHandlers ws0
          (newSessionRecord sessionId pty cwd createdAt now ws0))).dataListeners = 1
    ∧ (reconnects.foldl (fun u w => reconnectRecord w u)
        (setupSessionEventHandlers ws0
          (newSessionRecord sessionId pty cwd createdAt now ws0))).exitListeners = 1
    ∧ (wsLive (reconnects.foldl (fun u w => reconnectRecord w u)
          (setupSessionEventHandlers ws0
            (newSessionRecord sessionId pty cwd createdAt now ws0))).currentWs = true →
        (emitDataThenFlush tnow chunk
          (reconnects.foldl (fun u w => reconnectRecord w u)
            (setupSessionEventHandlers ws0
              (newSessionRecord sessionId pty cwd createdAt now ws0)))).2
          = [Act.send (Msg.output chunk)]) := by
  obtain ⟨ows, hshape⟩ := foldl_reconnect_shape reconnects
    (setupSessionEventHandlers ws0 (newSessionRecord sessionId pty cwd createdAt now ws0))
    rfl rfl
  rw [hshape]
  exact ⟨rfl, rfl, setup_already, rfl, rfl,
    fun hlive => one_chunk_one_message tnow chunk ows sessionId pty cwd createdAt now
      [] 1 hlive hchunk⟩

theorem handlersSetup_once_witness :
    (str "x" : Str) ≠ []
    ∧ ((newSessionRecord (str "s") ⟨1, false⟩ (str "/w") 2 3 ⟨1, 1, true, 0⟩).handlersSetup
          = false
      ∧ (setupSessionEventHandlers ⟨1, 1, true, 0⟩
          (newSessionRecord (str "s") ⟨1, false⟩ (str "/w") 2 3
            ⟨1, 1, true, 0⟩)).handlersSetup = true
      ∧ (∀ (w : WsObj) (t : SessionRec), t.handlersSetup = true →
          setupSessionEventHandlers w t = { t with currentWs := some w })
      ∧ ([⟨2, 1, true, 0⟩].foldl (fun u w => reconnectRecord w u)
          (setupSessionEventHandlers ⟨1, 1, true, 0⟩
            (newSessionRecord (str "s") ⟨1, false⟩ (str "/w") 2 3
              ⟨1, 1, true, 0⟩))).dataListeners = 1
      ∧ ([⟨2, 1, true, 0⟩].foldl (fun u w => reconnectRecord w u)
          (setupSessionEventHandlers ⟨1, 1, true, 0⟩
            (newSessionRecord (str "s") ⟨1, false⟩ (str "/w") 2 3
              ⟨1, 1, true, 0⟩))).exitListeners = 1
      ∧ (wsLive ([⟨2, 1, true, 0⟩].foldl (fun u w => reconnectRecord w u)
            (setupSessionEventHandlers ⟨1, 1, true, 0⟩
              (newSessionRecord (str "s") ⟨1, false⟩ (str "/w") 2 3
                ⟨1, 1, true, 0⟩))).currentWs = true →
          (emitDataThenFlush 7 (str "x")
            ([⟨2, 1, true, 0⟩].foldl (fun u w => reconnectRecord w u)
              (setupSessionEventHandlers ⟨1, 1, true, 0⟩
                (newSessionRecord (str "s") ⟨1, false⟩ (str "/w") 2 3
                  ⟨1, 1, true, 0⟩)))).2
            = [Act.send (Msg.output (str "x"))])) :=
  ⟨by decide,
    handlersSetup_once (str "s") ⟨1, false⟩ (str "/w") 2 3 7 ⟨1, 1, true, 0⟩
      [⟨2, 1, true, 0⟩] (str "x") (by decide)⟩

/-- **C2.** On a reconnect request for a known live session, after the
`session-reconnected` reply exactly one of the two strategies runs,
chosen on whether the rolling buffer is non-empty: non-empty ⇒ a single
`buffer-restore` message carrying the whole buffer verbatim after the
500 ms settle delay, with nothing (no reset, no clear) sent before it;
empty ⇒ an immediate `terminal-refresh` and a neutral `'\r'` control
byte written to the process after 200 ms. -/
theorem reconnect_two_strategies (now : Nat) (st : ServerState) (ws : WsObj)
    (sid : Str) (s : SessionRec) (hfind : lookupSession st sid = some s)
    (halive : s.pty.killed = false) :
    (reconnectToSession now st ws sid).2
      = [Act.send (.sessionReconnected sid s.workingDir)]
        ++ (if s.terminalBuffer = [] then
              [Act.send (.terminalRefresh sid), Act.delayedWrite 200 (str "\r")]
            else [Act.delayedSend 500 (.bufferRestore sid s.terminalBuffer)]) := by
  unfold reconnectToSession
  rw [hfind]
  by_cases hb : s.terminalBuffer = []
  · simp [halive, hb]
  · have hne : s.terminalBuffer.isEmpty = false := by
      cases h : s.terminalBuffer with
      | nil => exact absurd h hb
      | cons c cs => rfl
    simp [halive, hb, hne]

theorem reconnect_two_strategies_witness :
    lookupSession
        ⟨[(str "s1", ⟨str "s1", ⟨9, false⟩, str "/w", 0, str "hi", 0, none, true, false,
          [], 1, 1, 1⟩)], []⟩ (str "s1")
      = some ⟨str "s1", ⟨9, false⟩, str "/w", 0, str "hi", 0, none, true, false, [], 1, 1, 1⟩
    ∧ (reconnectToSession 5
        ⟨[(str "s1", ⟨str "s1", ⟨9, false⟩, str "/w", 0, str "hi", 0, none, true, false,
          [], 1, 1, 1⟩)], []⟩ ⟨3, 1, true, 4⟩ (str "s1")).2
      = [Act.send (.sessionReconnected (str "s1") (str "/w"))]
        ++ (if (str "hi" : Str) = [] then
              [Act.send (.terminalRefresh (str "s1")), Act.delayedWrite 200 (str "\r")]
            else [Act.delayedSend 500 (.bufferRestore (str "s1") (str "hi"))]) :=
  ⟨by decide,
    reconnect_two_strategies 5 _ ⟨3, 1, true, 4⟩ (str "s1")
      ⟨str "s1", ⟨9, false⟩, str "/w", 0, str "hi", 0, none, true, false, [], 1, 1, 1⟩
      (by decide) (by decide)⟩

theorem onData_nonclear (now : Nat) (chunk : Str) (s : SessionRec)
    (hlive : wsLive s.currentWs = true) (hnc : containsClearSeq chunk = false) :
    onData now chunk s
      = ({ s with outputBuffer := s.outputBuffer ++ chunk
                  terminalBuffer := appendTerminalBuffer s.terminalBuffer chunk
                  lastBufferUpdate := now
                  bufferTimerPending := true }, []) := by
  unfold onData
  rw [hlive]
  simp [hnc]

theorem pipeRun_live (now : Nat) (chunks : List Str) (s : SessionRec)
    (hlive : wsLive s.currentWs = true)
    (hnc : ∀ c ∈ chunks, containsClearSeq c = false) :
    (pipeRun now chunks s).2 = []
    ∧ (pipeRun now chunks s).1.currentWs = s.currentWs
    ∧ (pipeRun now chunks s).1.outputBuffer = s.outputBuffer ++ chunks.flatten := by
  induction chunks generalizing s with
  | nil =>
      refine ⟨rfl, rfl, ?_⟩
      rw [List.flatten_nil, List.append_nil]
      rfl
  | cons c cs ih =>
      have hc := hnc c (List.mem_cons_self c cs)
      have hrw := onData_nonclear now c s hlive hc
      simp only [pipeRun, hrw]
      obtain ⟨ih1, ih2, ih3⟩ := ih
        { s with outputBuffer := s.outputBuffer ++ c,
                 terminalBuffer := appendTerminalBuffer s.terminalBuffer c,
                 lastBufferUpdate := now, bufferTimerPending := true }
        hlive (fun d hd => hnc d (List.mem_cons_of_mem c hd))
      refine ⟨by rw [ih1]; rfl, by rw [ih2], ?_⟩
      rw [ih3, List.flatten_cons, List.append_assoc]

/-- **C3 counterexample.** When no live bound connection exists
(`currentWs` is null), an arriving chunk is dropped entirely: it is *not*
appended to the rolling `terminalBuffer` (which the claim asserts), and
no send is attempted.  The session below has rolling buffer `"abc"`;
after `"hello"` arrives ownerless, the buffer is still `"abc"`, not the
`"abchello"` the claim requires. -/
theorem outputPipeline_ownerless_drop_counterexample :
    ((onData 5 (str "hello")
        ⟨str "s1", ⟨9, false⟩, str "/w", 0, str "abc", 0, none, true, false,
          [], 1, 1, 1⟩).1).terminalBuffer = str "abc"
    ∧ (onData 5 (str "hello")
        ⟨str "s1", ⟨9, false⟩, str "/w", 0, str "abc", 0, none, true, false, [], 1, 1, 1⟩).2
      = []
    ∧ appendTerminalBuffer (str "abc") (str "hello") ≠ str "abc" := by
  refine ⟨rfl, rfl, ?_⟩
  decide

/-- **C3 (amended).** A flush delivers an `output` message containing
exactly the bytes accumulated since the previous flush, and only if a
live bound connection exists; but when no live bound connection exists,
an arriving chunk is dropped entirely — it is neither sent nor appended
to the rolling buffer (buffering does *not* continue while ownerless). -/
theorem outputPipeline_flush_exact (now : Nat) (s : SessionRec) (chunks : List Str)
    (chunk : Str) :
    (wsLive s.currentWs = true → (∀ c ∈ chunks, containsClearSeq c = false) →
      (pipeRun now chunks s).2 = []
      ∧ (flushBuffer now (pipeRun now chunks s).1).2
          = (if s.outputBuffer ++ chunks.flatten = [] then []
             else [Act.send (Msg.output (s.outputBuffer ++ chunks.flatten))]))
    ∧ (wsLive s.currentWs = false →
        onData now chunk s = (s, []) ∧ (flushBuffer now s).2 = []) := by
  constructor
  · intro hlive hnc
    obtain ⟨h1, h2, h3⟩ := pipeRun_live now chunks s hlive hnc
    refine ⟨h1, ?_⟩
    unfold flushBuffer
    by_cases hb : s.outputBuffer ++ chunks.flatten = []
    · have : (pipeRun now chunks s).1.outputBuffer.isEmpty = true := by
        rw [h3, hb]
        rfl
      simp [this, hb]
    · have : (pipeRun now chunks s).1.outputBuffer.isEmpty = false := by
        rw [h3]
        cases h : s.outputBuffer ++ chunks.flatten with
        | nil => exact absurd h hb
        | cons x xs => rfl
      rw [h2] at *
      simp [this, hlive, hb, h2, h3]
  · intro hdead
    constructor
    · unfold onData
      rw [hdead]
      simp
    · unfold flushBuffer
      rw [hdead]
      simp

theorem outputPipeline_flush_exact_witness :
    (wsLive (some ⟨3, 1, true, 4⟩) = true →
      (∀ c ∈ [str "he", str "llo"], containsClearSeq c = false) →
      (pipeRun 5 [str "he", str "llo"]
        ⟨str "s1", ⟨9, false⟩, str "/w", 0, [], 0, some ⟨3, 1, true, 4⟩, true, false,
          [], 1, 1, 1⟩).2 = []
      ∧ (flushBuffer 5 (pipeRun 5 [str "he", str "llo"]
          ⟨str "s1", ⟨9, false⟩, str "/w", 0, [], 0, some ⟨3, 1, true, 4⟩, true, false,
            [], 1, 1, 1⟩).1).2
          = (if ([] : Str) ++ [str "he", str "llo"].flatten = [] then []
             else [Act.send (Msg.output (([] : Str) ++ [str "he", str "llo"].flatten))]))
    ∧ (wsLive (some ⟨3, 1, true, 4⟩ : Option WsObj) = false →
        onData 5 (str "zz")
          ⟨str "s1", ⟨9, false⟩, str "/w", 0, [], 0, some ⟨3, 1, true, 4⟩, true, false,
            [], 1, 1, 1⟩
          = (⟨str "s1", ⟨9, false⟩, str "/w", 0, [], 0, some ⟨3, 1, true, 4⟩, true, false,
              [], 1, 1, 1⟩, [])
        ∧ (flushBuffer 5
            ⟨str "s1", ⟨9, false⟩, str "/w", 0, [], 0, some ⟨3, 1, true, 4⟩, true, false,
              [], 1, 1, 1⟩).2 = []) :=
  outputPipeline_flush_exact 5
    ⟨str "s1", ⟨9, false⟩, str "/w", 0, [], 0, some ⟨3, 1, true, 4⟩, true, false, [], 1, 1, 1⟩
    [str "he", str "llo"] (str "zz")

/-! ### The staleness sweeper (C5) -/
theorem hasActive_erase (entries : List WsEntry) (sid sid' : Str) (h : sid' ≠ sid)
    (now : Nat) :
    hasActiveConnection (entries.map (fun e => ⟨e.ws, e.sessions.erase sid⟩)) sid' now
      = hasActiveConnection entries sid' now := by
  induction entries with
  | nil => rfl
  | cons e es ih =>
      unfold hasActiveConnection at *
      simp only [List.map_cons, List.any_cons]
      have hdec : decide (sid' ∈ e.sessions.erase sid) = decide (sid' ∈ e.sessions) :=
        decide_eq_decide.mpr (List.mem_erase_of_ne h)
      rw [ih]
      dsimp only
      rw [hdec]

theorem hasActive_after_cleanup (st : ServerState) (sid sid' : Str) (h : sid' ≠ sid)
    (now : Nat) :
    hasActiveConnection ((cleanupSessionById st sid).1).wsSessions sid' now
      = hasActiveConnection st.wsSessions sid' now := by
  unfold cleanupSessionById
  cases hf : lookupSession st sid with
  | none => rfl
  | some s =>
      dsimp only
      exact hasActive_erase st.wsSessions sid sid' h now

theorem sweepGo_cons (now : Nat) (p : Str × SessionRec) (ps : List (Str × SessionRec))
    (st : ServerState) :
    sweepGo now (p :: ps) st
      = if !p.2.pty.killed && !hasActiveConnection st.wsSessions p.1 now then
          ((sweepGo now ps (cleanupSessionById st p.1).1).1,
            p.1 :: (sweepGo now ps (cleanupSessionById st p.1).1).2)
        else sweepGo now ps st := rfl

theorem sweepGo_characterization (now : Nat) (W0 : List WsEntry)
    (l : List (Str × SessionRec)) :
    ∀ st : ServerState,
      (l.map Prod.fst).Nodup →
      (∀ p ∈ l, hasActiveConnection st.wsSessions p.1 now
          = hasActiveConnection W0 p.1 now) →
      (sweepGo now l st).2
        = (l.filter
            (fun p => !p.2.pty.killed && !hasActiveConnection W0 p.1 now)).map Prod.fst := by
  induction l with
  | nil =>
      intro st _ _
      rfl
  | cons p ps ih =>
      intro st hnd hinv
      have hp := hinv p (List.mem_cons_self p ps)
      rw [List.map_cons] at hnd
      obtain ⟨hhead, htail⟩ := List.nodup_cons.mp hnd
      have hinvtail : ∀ q ∈ ps, hasActiveConnection st.wsSessions q.1 now
          = hasActiveConnection W0 q.1 now :=
        fun q hq => hinv q (List.mem_cons_of_mem p hq)
      rw [sweepGo_cons, List.filter_cons]
      cases hcond : (!p.2.pty.killed && !hasActiveConnection st.wsSessions p.1 now) with
      | false =>
          have hcond' : (!p.2.pty.killed && !hasActiveConnection W0 p.1 now) = false := by
            rw [← hp]
            exact hcond
          rw [hcond']
          simp only [Bool.false_eq_true, if_false]
          exact ih st htail hinvtail
      | true =>
          have hcond' : (!p.2.pty.killed && !hasActiveConnection W0 p.1 now) = true := by
            rw [← hp]
            exact hcond
          rw [hcond']
          simp only [if_true, List.map_cons]
          have hinv' : ∀ q ∈ ps,
              hasActiveConnection ((cleanupSessionById st p.1).1).wsSessions q.1 now
                = hasActiveConnection W0 q.1 now := by
            intro q hq
            have hne : q.1 ≠ p.1 := by
              intro heq
              exact hhead (heq ▸ List.mem_map_of_mem Prod.fst hq)
            rw [hasActive_after_cleanup st p.1 q.1 hne now]
            exact hinvtail q hq
          rw [ih (cleanupSessionById st p.1).1 htail hinv']

/-- **C5 counterexample.** A session whose bound connection is live
(`readyState = 1`, `isAlive`) but whose `lastSeen` is older than the
staleness threshold IS terminated by the sweeper: the sweep reads
`lastSeen` recency, never connection liveness, so a live owner does not
protect the session. -/
theorem sweeper_live_owner_counterexample :
    wsLive (some ⟨7, 1, true, 1⟩ : Option WsObj) = true
    ∧ (sweepStep 259200002
        ⟨[(str "abc", ⟨str "abc", ⟨42, false⟩, str "/w", 0, [], 0, some ⟨7, 1, true, 1⟩,
          true, false, [], 1, 1, 1⟩)],
         [⟨⟨7, 1, true, 1⟩, [str "abc"]⟩]⟩).2 = [str "abc"] := by
  decide

/-- **C5 (amended).** The sweeper runs on a fixed 10-second interval and
terminates exactly those live sessions for which no binding-table entry
that has touched them has a truthy `lastSeen` within the (3-day)
staleness threshold of now.  Connection liveness is not consulted: a
live-but-quiet owner does not protect its session, and a closed but
recently-seen connection does. -/
theorem sweeper_characterization (now : Nat) (st : ServerState)
    (hnd : (st.allSessions.map Prod.fst).Nodup) :
    (sweepStep now st).2
      = (st.allSessions.filter
          (fun p => !p.2.pty.killed
            && !hasActiveConnection st.wsSessions p.1 now)).map Prod.fst
    ∧ sweepIntervalMs = 10000 ∧ staleThreshold = 259200000 :=
  ⟨sweepGo_characterization now st.wsSessions st.allSessions st hnd (fun _ _ => rfl),
    rfl, rfl⟩

theorem sweeper_characterization_witness :
    (sweepStep 259200002
        ⟨[(str "abc", ⟨str "abc", ⟨42, false⟩, str "/w", 0, [], 0, some ⟨7, 1, true, 1⟩,
          true, false, [], 1, 1, 1⟩)],
         [⟨⟨7, 1, true, 1⟩, [str "abc"]⟩]⟩).2
      = (([(str "abc", ⟨str "abc", ⟨42, false⟩, str "/w", 0, [], 0, some ⟨7, 1, true, 1⟩,
          true, false, [], 1, 1, 1⟩)] : List (Str × SessionRec)).filter
          (fun p => !p.2.pty.killed
            && !hasActiveConnection [⟨⟨7, 1, true, 1⟩, [str "abc"]⟩] p.1 259200002)).map
          Prod.fst
    ∧ sweepIntervalMs = 10000 ∧ staleThreshold = 259200000 :=
  sweeper_characterization 259200002
    ⟨[(str "abc", ⟨str "abc", ⟨42, false⟩, str "/w", 0, [], 0, some ⟨7, 1, true, 1⟩,
      true, false, [], 1, 1, 1⟩)],
     [⟨⟨7, 1, true, 1⟩, [str "abc"]⟩]⟩ (by decide)

/-! ### Input routing (C6), process exit (C7), start-session (C8, C10) -/
/-- **C6 counterexample.** An `input` message with an *absent* sessionId
is not ignored: the fallback scan routes it to the first session this
connection owns, and a PTY write occurs.  Here the connection owns live
session `"s1"` and the keystroke `"x"` is written to it. -/
theorem handleInput_fallback_counterexample :
    (handleInput
        ⟨[(str "s1", ⟨str "s1", ⟨9, false⟩, str "/w", 0, [], 0, some ⟨5, 1, true, 0⟩,
          true, false, [], 1, 1, 1⟩)],
         [⟨⟨5, 1, true, 0⟩, [str "s1"]⟩]⟩
        ⟨5, 1, true, 0⟩ (str "x") none).1
      = [(str "s1", str "x")]
    ∧ [(str "s1", str "x")] ≠ ([] : List (Str × Str)) := by
  decide

/-- **C6 (amended).** An `input` message with an *unknown* (or dead)
truthy sessionId performs no process write and surfaces no error to the
client (it is only logged).  An input with an *absent* (or empty, hence
falsy) sessionId is not dropped: it falls back to the first live session
this connection currently owns and writes there, or does nothing when
there is none.  In every case no message is sent back to the client. -/
theorem handleInput_routing (st : ServerState) (ws : WsObj) (input : Str) (t : Str) :
    (t ≠ [] → (match lookupSession st t with
               | none => True
               | some s => s.pty.killed = true) →
      handleInput st ws input (some t) = ([], []))
    ∧ handleInput st ws input none
        = (match firstOwnedActive st ws with
           | some sid => [(sid, input)]
           | none => [], [])
    ∧ (∀ target : Option Str, (handleInput st ws input target).2 = []) := by
  refine ⟨?_, rfl, ?_⟩
  · intro ht hdead
    unfold handleInput
    have htruthy : jsTruthy (some t) = true := by
      unfold jsTruthy
      cases t with
      | nil => exact absurd rfl ht
      | cons c cs => rfl
    rw [htruthy]
    simp only [if_true]
    cases hf : lookupSession st t with
    | none => simp [hf]
    | some s =>
        rw [hf] at hdead
        simp [hf, hdead]
  · intro target
    cases target with
    | none => rfl
    | some t =>
        cases t with
        | nil => rfl
        | cons c cs => rfl

theorem handleInput_routing_witness :
    ((str "zz" : Str) ≠ [] → (match lookupSession ⟨[], []⟩ (str "zz") with
               | none => True
               | some s => s.pty.killed = true) →
      handleInput ⟨[], []⟩ ⟨5, 1, true, 0⟩ (str "x") (some (str "zz")) = ([], []))
    ∧ handleInput ⟨[], []⟩ ⟨5, 1, true, 0⟩ (str "x") none
        = (match firstOwnedActive ⟨[], []⟩ ⟨5, 1, true, 0⟩ with
           | some sid => [(sid, str "x")]
           | none => [], [])
    ∧ (∀ target : Option Str,
        (handleInput ⟨[], []⟩ ⟨5, 1, true, 0⟩ (str "x") target).2 = []) :=
  handleInput_routing ⟨[], []⟩ ⟨5, 1, true, 0⟩ (str "x") (str "zz")

theorem find?_delAssoc (l : List (Str × SessionRec)) (sid : Str) :
    (delAssoc l sid).find? (fun p => decide (p.1 = sid)) = none := by
  unfold delAssoc
  induction l with
  | nil => rfl
  | cons p ps ih =>
      rw [List.filter_cons]
      by_cases h : p.1 = sid
      · have : (decide (p.1 ≠ sid)) = false := by simp [h]
        rw [this]
        simp only [Bool.false_eq_true, if_false]
        exact ih
      · have hd : (decide (p.1 ≠ sid)) = true := by simp [h]
        rw [hd]
        simp only [if_true]
        rw [List.find?_cons]
        have : (decide (p.1 = sid)) = false := by simp [h]
        rw [this]
        exact ih

/-- **C7 counterexample.**  A session whose process has just exited on
its own still has `killed = false` at exit-handler time: the server
never assigns `killed`, node-pty exposes no such field, and `kill()` was
never called (the repository's test mocks fire the `exit` handler in
exactly this state).  Cleanup's `!ptyProcess.killed` guard therefore
passes, and the exit path re-sends `SIGTERM` to the already-exited
process and schedules the 5 s `SIGKILL` escalation — contradicting the
claim's "without re-sending a kill signal". -/
theorem exit_rekill_counterexample :
    Act.kill 9 (str "SIGTERM")
      ∈ (onExit
          ⟨[(str "s1", ⟨str "s1", ⟨9, false⟩, str "/w", 0, [], 0, some ⟨5, 1, true, 0⟩,
            true, false, [], 1, 1, 1⟩)], [⟨⟨5, 1, true, 0⟩, [str "s1"]⟩]⟩ (str "s1")
          ⟨str "s1", ⟨9, false⟩, str "/w", 0, [], 0, some ⟨5, 1, true, 0⟩,
            true, false, [], 1, 1, 1⟩ 0).2
    ∧ Act.delayedKill 5000 9 (str "SIGKILL")
      ∈ (onExit
          ⟨[(str "s1", ⟨str "s1", ⟨9, false⟩, str "/w", 0, [], 0, some ⟨5, 1, true, 0⟩,
            true, false, [], 1, 1, 1⟩)], [⟨⟨5, 1, true, 0⟩, [str "s1"]⟩]⟩ (str "s1")
          ⟨str "s1", ⟨9, false⟩, str "/w", 0, [], 0, some ⟨5, 1, true, 0⟩,
            true, false, [], 1, 1, 1⟩ 0).2 := by
  decide

/-- **C7 (amended).** When a session's process exits, the `exit` handler
delivers an `exit` message with the exit code to the bound connection
exactly when it is open, and then terminates the session through the
normal cleanup path (pending flush timer cancelled, session removed from
the registry) — but, nothing having marked the handle `killed` on a
natural exit, cleanup's `!ptyProcess.killed` guard passes and a
`SIGTERM` *is* re-sent to the already-exited process, with a `SIGKILL`
escalation scheduled 5 s later. -/
theorem exit_handler_cleanup (st : ServerState) (sid : Str) (s : SessionRec) (code : Int)
    (hfind : lookupSession st sid = some s) (hnotkilled : s.pty.killed = false) :
    (onExit st sid s code).2
      = (if wsLive s.currentWs then [Act.send (.exitMsg code)] else [])
        ++ ((if s.bufferTimerPending then [Act.clearTimer] else [])
            ++ [Act.kill s.pty.pid (str "SIGTERM"),
                Act.delayedKill 5000 s.pty.pid (str "SIGKILL")])
    ∧ lookupSession (onExit st sid s code).1 sid = none := by
  constructor
  · unfold onExit cleanupSessionById
    rw [hfind]
    dsimp only
    rw [hnotkilled]
    simp
  · unfold onExit cleanupSessionById
    rw [hfind]
    dsimp only
    unfold lookupSession
    dsimp only
    rw [find?_delAssoc]
    rfl

theorem exit_handler_cleanup_witness :
    lookupSession
        ⟨[(str "s1", ⟨str "s1", ⟨9, false⟩, str "/w", 0, [], 0, some ⟨5, 1, true, 0⟩,
          true, false, [], 1, 1, 1⟩)], [⟨⟨5, 1, true, 0⟩, [str "s1"]⟩]⟩ (str "s1")
      = some ⟨str "s1", ⟨9, false⟩, str "/w", 0, [], 0, some ⟨5, 1, true, 0⟩,
          true, false, [], 1, 1, 1⟩
    ∧ ((onExit
        ⟨[(str "s1", ⟨str "s1", ⟨9, false⟩, str "/w", 0, [], 0, some ⟨5, 1, true, 0⟩,
          true, false, [], 1, 1, 1⟩)], [⟨⟨5, 1, true, 0⟩, [str "s1"]⟩]⟩ (str "s1")
        ⟨str "s1", ⟨9, false⟩, str "/w", 0, [], 0, some ⟨5, 1, true, 0⟩,
          true, false, [], 1, 1, 1⟩ 0).2
      = (if wsLive (some ⟨5, 1, true, 0⟩ : Option WsObj)
          then [Act.send (.exitMsg 0)] else [])
        ++ ((if false then [Act.clearTimer] else [])
            ++ [Act.kill 9 (str "SIGTERM"), Act.delayedKill 5000 9 (str "SIGKILL")])
      ∧ lookupSession (onExit
          ⟨[(str "s1", ⟨str "s1", ⟨9, false⟩, str "/w", 0, [], 0, some ⟨5, 1, true, 0⟩,
            true, false, [], 1, 1, 1⟩)], [⟨⟨5, 1, true, 0⟩, [str "s1"]⟩]⟩ (str "s1")
          ⟨str "s1", ⟨9, false⟩, str "/w", 0, [], 0, some ⟨5, 1, true, 0⟩,
            true, false, [], 1, 1, 1⟩ 0).1 (str "s1") = none) :=
  ⟨by decide,
    exit_handler_cleanup
      ⟨[(str "s1", ⟨str "s1", ⟨9, false⟩, str "/w", 0, [], 0, some ⟨5, 1, true, 0⟩,
        true, false, [], 1, 1, 1⟩)], [⟨⟨5, 1, true, 0⟩, [str "s1"]⟩]⟩ (str "s1")
      ⟨str "s1", ⟨9, false⟩, str "/w", 0, [], 0, some ⟨5, 1, true, 0⟩,
        true, false, [], 1, 1, 1⟩ 0 (by decide) (by decide)⟩

/-- **C8 counterexample.** An *empty* requested working directory never
reaches path validation: `workingDir || process.cwd()` replaces it with
the server's current working directory first, so `start-session` with
path `""` silently creates a session in the default directory and sends
no error — although `validateAndNormalizePath` itself rejects the empty
string.  (The claim's `empty/whitespace-only input ⇒ error, no session,
no fallback` is therefore false for the empty input.) -/
theorem start_empty_path_fallback_counterexample :
    validateAndNormalizePath [] (str "/srv/app") (str "")
      = .invalid (str "Path cannot be empty")
    ∧ (startClaudeCodeSession ⟨[], []⟩ ⟨1, 1, true, 0⟩ (some []) [] (str "/srv/app")
        (str "sid1") ⟨9, false⟩ 0 0 none true).2
      = [Act.send (.pathInfo (str "/srv/app")), Act.send (.sessionStarted (str "sid1"))]
    ∧ lookupSession (startClaudeCodeSession ⟨[], []⟩ ⟨1, 1, true, 0⟩ (some []) []
        (str "/srv/app") (str "sid1") ⟨9, false⟩ 0 0 none true).1 (str "sid1")
      = some (setupSessionEventHandlers ⟨1, 1, true, 0⟩
          (newSessionRecord (str "sid1") ⟨9, false⟩ (str "/srv/app") 0 0
            ⟨1, 1, true, 0⟩)) := by
  decide

/-- **C8 (amended).** Whenever path validation rejects the *effective*
requested directory (whitespace-only non-empty input, traversal, a
current-directory marker, a null byte, length over 4096, a double
slash), `start-session` sends exactly one `error` message to the
requesting connection, creates no session, and leaves the registry and
binding table untouched; but an empty or absent requested directory is
substituted with the server's current working directory *before*
validation rather than rejected. -/
theorem start_rejected_path_no_session (st : ServerState) (ws : WsObj)
    (workingDir : Option Str) (workingDirPrefix cwd sid : Str) (pty : PtyProc)
    (ca now : Nat) (mkdirError : Option Str) (claudeFound : Bool) (e : Str)
    (hval : validateAndNormalizePath workingDirPrefix cwd
        (effectiveWorkingDir workingDir cwd) = .invalid e) :
    startClaudeCodeSession st ws workingDir workingDirPrefix cwd sid pty ca now
        mkdirError claudeFound
      = (st, [Act.send (.errorMsg (str "Invalid working directory: " ++ e))])
    ∧ (workingDir = none ∨ workingDir = some [] →
        effectiveWorkingDir workingDir cwd = cwd) := by
  constructor
  · unfold startClaudeCodeSession validateAndCreatePath
    rw [hval]
  · rintro (h | h) <;> rw [h] <;> rfl

theorem start_rejected_path_no_session_witness :
    startClaudeCodeSession ⟨[], []⟩ ⟨1, 1, true, 0⟩ (some (str "../x")) [] (str "/srv")
        (str "sid1") ⟨9, false⟩ 0 0 none true
      = (⟨[], []⟩,
         [Act.send (.errorMsg (str "Invalid working directory: "
            ++ str "Parent directory traversal not allowed"))])
    ∧ (some (str "../x") = none ∨ some (str "../x") = some ([] : Str) →
        effectiveWorkingDir (some (str "../x")) (str "/srv") = str "/srv") :=
  start_rejected_path_no_session ⟨[], []⟩ ⟨1, 1, true, 0⟩ (some (str "../x")) []
    (str "/srv") (str "sid1") ⟨9, false⟩ 0 0 none true
    (str "Parent directory traversal not allowed") (by decide)

theorem find?_setAssoc_self (l : List (Str × SessionRec)) (sid : Str) (r : SessionRec) :
    (setAssoc l sid r).find? (fun p => decide (p.1 = sid)) = some (sid, r) := by
  induction l with
  | nil =>
      unfold setAssoc
      rw [List.find?_cons]
      simp
  | cons p ps ih =>
      unfold setAssoc
      by_cases h : p.1 = sid
      · rw [if_pos h, List.find?_cons]
        simp
      · rw [if_neg h, List.find?_cons]
        have : (decide (p.1 = sid)) = false := by simp [h]
        rw [this]
        exact ih

/-- **C10.** `generateSessionId` derives an at-most-9-character id from
the random draw alone — no uniqueness check against the registry — and
when the generated id collides with an existing live session,
`startClaudeCodeSession`'s `Map.set` silently replaces that session's
record in the registry with the new one while issuing no kill signal:
the old record's still-running PTY process is orphaned, never killed. -/
theorem start_collision_replaces_record (st : ServerState) (ws : WsObj)
    (workingDir : Option Str) (workingDirPrefix cwd sid : Str) (ptyNew : PtyProc)
    (ca now : Nat) (mkdirError : Option Str) (claudeFound : Bool)
    (old : SessionRec) (r : ValidPath)
    (hold : lookupSession st sid = some old)
    (holdAlive : old.pty.killed = false)
    (hval : validateAndCreatePath workingDirPrefix cwd
        (effectiveWorkingDir workingDir cwd) mkdirError = .valid r) :
    lookupSession (startClaudeCodeSession st ws workingDir workingDirPrefix cwd sid
        ptyNew ca now mkdirError claudeFound).1 sid
      = some (setupSessionEventHandlers ws
          (newSessionRecord sid ptyNew r.normalizedPath ca now ws))
    ∧ (∀ a ∈ (startClaudeCodeSession st ws workingDir workingDirPrefix cwd sid ptyNew
        ca now mkdirError claudeFound).2, isKillAct a = false)
    ∧ (∀ randomStr : Str, (generateSessionId randomStr).length ≤ 9) := by
  unfold startClaudeCodeSession
  rw [hval]
  refine ⟨?_, ?_, ?_⟩
  · unfold lookupSession
    dsimp only
    rw [find?_setAssoc_self]
    rfl
  · intro a ha
    dsimp only at ha
    cases claudeFound with
    | true =>
        simp only [if_true, List.append_nil, List.mem_cons, List.not_mem_nil,
          or_false] at ha
        rcases ha with h | h <;> rw [h] <;> rfl
    | false =>
        simp only [Bool.false_eq_true, if_false, List.mem_append, List.mem_cons,
          List.mem_singleton, List.not_mem_nil, or_false] at ha
        rcases ha with (h | h) | h <;> rw [h] <;> rfl
  · intro randomStr
    unfold generateSessionId
    have := List.length_take 9 (randomStr.drop 2)
    rw [this]
    omega

theorem start_collision_replaces_record_witness :
    lookupSession
        ⟨[(str "sid1", ⟨str "sid1", ⟨11, false⟩, str "/old", 0, [], 0, none,
          true, false, [], 1, 1, 1⟩)], []⟩ (str "sid1")
      = some ⟨str "sid1", ⟨11, false⟩, str "/old", 0, [], 0, none, true, false, [], 1, 1, 1⟩
    ∧ (lookupSession (startClaudeCodeSession
          ⟨[(str "sid1", ⟨str "sid1", ⟨11, false⟩, str "/old", 0, [], 0, none,
            true, false, [], 1, 1, 1⟩)], []⟩ ⟨1, 1, true, 0⟩ (some (str "/new")) []
          (str "/srv") (str "sid1") ⟨12, false⟩ 3 4 none true).1 (str "sid1")
        = some (setupSessionEventHandlers ⟨1, 1, true, 0⟩
            (newSessionRecord (str "sid1") ⟨12, false⟩ (str "/new") 3 4 ⟨1, 1, true, 0⟩))
      ∧ (∀ a ∈ (startClaudeCodeSession
          ⟨[(str "sid1", ⟨str "sid1", ⟨11, false⟩, str "/old", 0, [], 0, none,
            true, false, [], 1, 1, 1⟩)], []⟩ ⟨1, 1, true, 0⟩ (some (str "/new")) []
          (str "/srv") (str "sid1") ⟨12, false⟩ 3 4 none true).2, isKillAct a = false)
      ∧ (∀ randomStr : Str, (generateSessionId randomStr).length ≤ 9)) :=
  ⟨by decide,
    start_collision_replaces_record
      ⟨[(str "sid1", ⟨str "sid1", ⟨11, false⟩, str "/old", 0, [], 0, none,
        true, false, [], 1, 1, 1⟩)], []⟩ ⟨1, 1, true, 0⟩ (some (str "/new")) []
      (str "/srv") (str "sid1") ⟨12, false⟩ 3 4 none true
      ⟨str "sid1", ⟨11, false⟩, str "/old", 0, [], 0, none, true, false, [], 1, 1, 1⟩
      ⟨str "/new", str "/new", str "/new", false⟩ (by decide) (by decide) (by decide)⟩
